import Mathlib

/-!
Verification of the chat streaming pipeline of `lang-stream-ai-agent`.

This file gives a shallow embedding of the pipeline's core functions and proves
properties of them:

* `backend/api/v1/chat/service.py`, `ChatService.event_stream` — the streaming
  orchestrator that drives one chat turn, embedded as `event_stream`.  The async
  generator is modelled as a function from the turn's inputs — the user input,
  whether a session id and database handle are present, the outcomes of the
  awaited database operations (an oracle `DbOps`, each operation either
  returning a value or raising), and the sequence of events produced by the
  agent stream together with how that stream terminates (`AgentStream`) — to
  the list of SSE chunks the generator yields and the list of messages it
  persists (`TurnResult`).  SSE chunks are modelled structurally
  (`SSEChunk`), abstracting the `json.dumps` serialisation; the `": connected"`
  comment line is `SSEChunk.comment`.
* `backend/agents/langgraph_agent.py` — `should_continue`, the graph wiring of
  `get_graph`, the `tavily_search` tool, and the input-message construction of
  `stream_graph`.
* `backend/agents/tools/document_search_tool.py` — `_search_documents_impl`.
* `backend/api/v1/chat/message_service.py` — `save_message` and
  `get_last_n_messages` over a store modelled as the list of rows in insertion
  order (`created_at` strictly increases with insertion order, so ordering by
  `created_at` descending is reversal of the filtered store).

Exceptions are values of `Exn`: `Exn.timeout` models `asyncio.TimeoutError`,
and `Exn.other text` models any other exception whose rendered message
(`str(e)`, to which `event_stream`'s handler appends the formatted traceback)
is `text`; the traceback suffix itself is runtime-dependent and abstracted
into that carried text.
-/

/-- Exception raised by an awaited operation: either `asyncio.TimeoutError`
or any other exception, carrying its rendered message text. -/
inductive Exn
  | timeout
  | other (text : String)
deriving DecidableEq, Repr

/-- Outcome of one awaited fallible operation: a returned value, or a raised
exception. -/
inductive Outcome (α : Type)
  | ok (value : α)
  | raised (e : Exn)
deriving DecidableEq, Repr

/-- Message roles, from `models/chat_message.py` (`MessageRole`). -/
inductive MessageRole
  | user
  | assistant
  | system
  | tool
deriving DecidableEq, Repr

/-- One `chat_messages` row: session id (abstracted to `Nat`), role and text.
The row's `created_at` is modelled by its position in the store list. -/
structure StoredMessage where
  sessionId : Nat
  role : MessageRole
  content : String
deriving DecidableEq, Repr

/-- Rows of the given session, in insertion (`created_at` ascending) order:
the `WHERE session_id == ...` filter shared by the message-service queries. -/
def sessionMessages (store : List StoredMessage) (sessionId : Nat) : List StoredMessage :=
  store.filter (fun m => m.sessionId == sessionId)

/-- MessageService.save_message: inserts one new row; with `created_at`
monotone in insertion order this appends the row to the store. -/
def save_message (store : List StoredMessage) (sessionId : Nat) (role : MessageRole)
    (content : String) : List StoredMessage :=
  store ++ [⟨sessionId, role, content⟩]

/-- MessageService.get_last_n_messages: select rows of the session ordered by
`created_at` descending, limit `n`, then `list(reversed(...))`. -/
def get_last_n_messages (store : List StoredMessage) (sessionId : Nat) (n : Nat) :
    List StoredMessage :=
  (((sessionMessages store sessionId).reverse).take n).reverse

/-- Events yielded by `stream_graph` and consumed by `event_stream`'s
`async for` loop, keyed by their `type` field.  `unknown` stands for any
event whose `type` matches none of the handled branches (the loop ignores
it and yields nothing). -/
inductive AgentEvent
  | token (content : String)
  | toolStart (message : String)
  | toolThinking (toolName : String)
  | toolCall (tool : String) (input : String)
  | toolResult (result : String)
  | unknown
deriving DecidableEq, Repr

/-- How the `async for event in stream_graph(...)` iteration ends: it either
completes normally, or raises after the listed events were yielded. -/
inductive AgentTerminal
  | completed
  | raised (e : Exn)
deriving DecidableEq, Repr

/-- The agent stream consumed by one turn: the events yielded in order, and
how the iteration terminates. -/
structure AgentStream where
  events : List AgentEvent
  terminal : AgentTerminal
deriving DecidableEq, Repr

/-- An SSE chunk yielded by `event_stream`, modelled structurally.  `comment`
is the `": connected"` connection-confirmation comment; the others are the
`data: {json}` events keyed by their `type` field. -/
inductive SSEChunk
  | comment
  | content (text : String) (token : Nat)
  | toolStart (message : String)
  | toolThinking (toolName : String)
  | toolCall (tool : String) (input : String)
  | toolResult (result : String)
  | done (totalTokens : Nat)
  | error (msg : String)
deriving DecidableEq, Repr

/-- Oracle for the awaited database operations of one `event_stream` turn, in
the order the code awaits them.  `getLastN` is `get_last_n_messages(db,
session_id, n=20)`; `saveUserMessage`/`touchSessionAfterUser` are the
user-message `save_message` and `update_last_message_at`;
`saveAssistantMessage`/`touchSessionAfterAssistant`/`countMessages`/`getSession`
are the post-stream persistence calls.  The background title task runs in a
detached task and neither yields chunks nor raises into the stream. -/
structure DbOps where
  getLastN : Outcome (List StoredMessage)
  saveUserMessage : Outcome Unit
  touchSessionAfterUser : Outcome Unit
  saveAssistantMessage : Outcome Unit
  touchSessionAfterAssistant : Outcome Unit
  countMessages : Outcome Nat
  getSession : Outcome Unit

/-- The loop state of `event_stream`'s `async for` body: chunks yielded so
far by the loop, `token_count`, `has_content`, and `assistant_response`. -/
structure LoopAcc where
  chunks : List SSEChunk
  tokenCount : Nat
  hasContent : Bool
  assistantResponse : String

/-- One iteration of `event_stream`'s `async for` body, dispatching on the
event's `type` exactly as the `if`/`elif` chain does. -/
def stepEvent (acc : LoopAcc) : AgentEvent → LoopAcc
  | AgentEvent.token c =>
      { chunks := acc.chunks ++ [SSEChunk.content c acc.tokenCount]
        tokenCount := acc.tokenCount + 1
        hasContent := true
        assistantResponse := acc.assistantResponse ++ c }
  | AgentEvent.toolStart m => { acc with chunks := acc.chunks ++ [SSEChunk.toolStart m] }
  | AgentEvent.toolThinking t => { acc with chunks := acc.chunks ++ [SSEChunk.toolThinking t] }
  | AgentEvent.toolCall t i => { acc with chunks := acc.chunks ++ [SSEChunk.toolCall t i] }
  | AgentEvent.toolResult r => { acc with chunks := acc.chunks ++ [SSEChunk.toolResult r] }
  | AgentEvent.unknown => acc

/-- The whole `async for` loop: fold the body over the yielded events,
starting from `token_count = 0`, `has_content = False`,
`assistant_response = ""`. -/
def runAgentLoop (events : List AgentEvent) : LoopAcc :=
  events.foldl stepEvent ⟨[], 0, false, ""⟩

/-- The message carried by the `error` SSE event: the dedicated text for
`asyncio.TimeoutError`, and the rendered exception text (with appended
traceback, abstracted into `text`) for any other exception. -/
def errorMessage : Exn → String
  | Exn.timeout => "Request timed out. The tool took too long to respond."
  | Exn.other text => text

/-- The single `error` chunk yielded by the matching `except` handler. -/
def errChunk (e : Exn) : SSEChunk :=
  SSEChunk.error (errorMessage e)

/-- The synthetic fallback content text sent when no token was produced. -/
def fallbackMessage : String :=
  "I've searched for the information but couldn't generate a response. Please try again."

/-- Result of one `event_stream` turn: the chunks yielded in order, and the
messages successfully persisted by `save_message`, in order. -/
structure TurnResult where
  chunks : List SSEChunk
  saves : List (MessageRole × String)

/-- The part of `event_stream` after the `async for` loop completed without
raising: the fallback content event when `has_content` is false, then the
conditional assistant-side persistence (any raise there is caught by the
`except` handlers and yields the single `error` chunk), then the `done`
event.  `cs` is the list of chunks already yielded. -/
def finishTurn (sessionAndDb : Bool) (db : DbOps) (acc : LoopAcc) (cs : List SSEChunk)
    (saves : List (MessageRole × String)) : TurnResult :=
  let cs1 := if acc.hasContent then cs else cs ++ [SSEChunk.content fallbackMessage 0]
  if sessionAndDb && (acc.assistantResponse != "") then
    match db.saveAssistantMessage with
    | Outcome.raised e => ⟨cs1 ++ [errChunk e], saves⟩
    | Outcome.ok _ =>
      let saves1 := saves ++ [(MessageRole.assistant, acc.assistantResponse)]
      match db.touchSessionAfterAssistant with
      | Outcome.raised e => ⟨cs1 ++ [errChunk e], saves1⟩
      | Outcome.ok _ =>
        match db.countMessages with
        | Outcome.raised e => ⟨cs1 ++ [errChunk e], saves1⟩
        | Outcome.ok _ =>
          match db.getSession with
          | Outcome.raised e => ⟨cs1 ++ [errChunk e], saves1⟩
          | Outcome.ok _ => ⟨cs1 ++ [SSEChunk.done acc.tokenCount], saves1⟩
  else ⟨cs1 ++ [SSEChunk.done acc.tokenCount], saves⟩

/-- The streaming part of the turn, entered after the pre-stream persistence
succeeded: yield the `": connected"` comment, run the `async for` loop, and
either fall into the `except` handler when the agent iteration raises, or
finish the turn. -/
def streamPhase (sessionAndDb : Bool) (db : DbOps) (agent : AgentStream)
    (saves : List (MessageRole × String)) : TurnResult :=
  let acc := runAgentLoop agent.events
  match agent.terminal with
  | AgentTerminal.raised e => ⟨SSEChunk.comment :: acc.chunks ++ [errChunk e], saves⟩
  | AgentTerminal.completed => finishTurn sessionAndDb db acc (SSEChunk.comment :: acc.chunks) saves

/-- ChatService.event_stream.  `sessionAndDb` is the truth value of the
`if session_id and db:` guards.  When it holds, the turn first loads the last
20 messages, saves the user message and touches the session; an exception in
any of these is caught by the `except` handlers before the `": connected"`
comment was ever yielded, so the whole stream is the single `error` chunk. -/
def event_stream (userInput : String) (sessionAndDb : Bool) (db : DbOps)
    (agent : AgentStream) : TurnResult :=
  if sessionAndDb then
    match db.getLastN with
    | Outcome.raised e => ⟨[errChunk e], []⟩
    | Outcome.ok _prev =>
      match db.saveUserMessage with
      | Outcome.raised e => ⟨[errChunk e], []⟩
      | Outcome.ok _ =>
        match db.touchSessionAfterUser with
        | Outcome.raised e => ⟨[errChunk e], [(MessageRole.user, userInput)]⟩
        | Outcome.ok _ => streamPhase sessionAndDb db agent [(MessageRole.user, userInput)]
  else streamPhase sessionAndDb db agent []

/-- Contents of the `token` events of an agent stream, in order. -/
def tokenContents (events : List AgentEvent) : List String :=
  events.filterMap (fun e =>
    match e with
    | AgentEvent.token c => some c
    | _ => none)

/-- The `(content, token)` pairs of the `content` chunks of a chunk list,
in order. -/
def contentChunks (chunks : List SSEChunk) : List (String × Nat) :=
  chunks.filterMap (fun c =>
    match c with
    | SSEChunk.content s t => some (s, t)
    | _ => none)

/-- Concatenation of a list of strings in order. -/
def concatAll : List String → String
  | [] => ""
  | s :: rest => s ++ concatAll rest

/-- Whether a chunk is a terminal event (`done` or `error`). -/
def isTerminalChunk : SSEChunk → Bool
  | SSEChunk.done _ => true
  | SSEChunk.error _ => true
  | _ => false

/-- The chunk list ends with exactly one terminal event and nothing after
it, and no terminal event occurs earlier. -/
def endsWithOneTerminal (chunks : List SSEChunk) : Prop :=
  ∃ cs c, chunks = cs ++ [c] ∧ isTerminalChunk c = true ∧ ∀ x ∈ cs, isTerminalChunk x = false

/-- The claim that the emitted stream begins with the connection-confirmation
comment. -/
def beginsWithConnectionComment (r : TurnResult) : Prop :=
  ∃ rest, r.chunks = SSEChunk.comment :: rest

/-- The pre-stream persistence operations (history load, user-message save,
last-activity update) succeed whenever they run. -/
def prePhaseSucceeds (sessionAndDb : Bool) (db : DbOps) : Prop :=
  sessionAndDb = true →
    (∃ ms, db.getLastN = Outcome.ok ms) ∧
    db.saveUserMessage = Outcome.ok () ∧
    db.touchSessionAfterUser = Outcome.ok ()

/-- A tool-call request attached to a model message (name and arguments). -/
structure ToolCallReq where
  name : String
  args : String
deriving DecidableEq, Repr

/-- A message in the graph state.  `toolCalls = none` models the absence of
the `tool_calls` attribute (`hasattr` is false); `some calls` models the
attribute holding `calls` (an empty list is falsy in the source's guard). -/
structure AgentMessage where
  content : String
  toolCalls : Option (List ToolCallReq)
deriving DecidableEq, Repr

/-- Nodes of the LangGraph graph built by `get_graph`: `START`, the
`call_model` node, the `tools` node, and `END`. -/
inductive GraphNode
  | start
  | callModel
  | tools
  | endNode
deriving DecidableEq, Repr

/-- should_continue from `langgraph_agent.py`: routes to the `tools` node
when the last message has a truthy `tool_calls` attribute, otherwise to
`END`.  `messages[-1]` raises on an empty list, modelled by `none`. -/
def should_continue (messages : List AgentMessage) : Option GraphNode :=
  match messages.getLast? with
  | none => none
  | some last =>
    match last.toolCalls with
    | some calls => if calls.isEmpty then some GraphNode.endNode else some GraphNode.tools
    | none => some GraphNode.endNode

/-- The edge structure of `get_graph`: `START -> call_model`, the conditional
edge `call_model -> should_continue(state)`, and the unconditional edge
`tools -> call_model`.  `END` has no outgoing edge. -/
def graphStep (node : GraphNode) (messages : List AgentMessage) : Option GraphNode :=
  match node with
  | GraphNode.start => some GraphNode.callModel
  | GraphNode.callModel => should_continue messages
  | GraphNode.tools => some GraphNode.callModel
  | GraphNode.endNode => none

/-- One entry of the Tavily response's `results` list.  `title = none`
models a missing `title` key (`r.get('title', 'N/A')`). -/
structure TavilyItem where
  title : Option String
  content : String
  url : String
deriving DecidableEq, Repr

/-- A Tavily response that is a dict: optional `answer` (the empty string
models a missing or falsy value) and the `results` list. -/
structure TavilyDict where
  answer : String
  results : List TavilyItem
deriving DecidableEq, Repr

/-- The value returned by `TavilySearch.invoke`: a dict, or anything else
(rendered by `str(result)`). -/
inductive TavilyValue
  | dict (d : TavilyDict)
  | nondict (rendered : String)
deriving DecidableEq, Repr

/-- The three output lines appended for the `i`-th (1-based) Tavily result. -/
def formatTavilyItem (i : Nat) (r : TavilyItem) : List String :=
  ["\n" ++ toString i ++ ". " ++ r.title.getD "N/A",
   "   " ++ r.content.take 200 ++ "...",
   "   URL: " ++ r.url]

/-- The formatting of a Tavily result in `tavily_search`'s body. -/
def formatTavilyResult : TavilyValue → String
  | TavilyValue.nondict rendered => rendered
  | TavilyValue.dict d =>
    let answerPart := if d.answer != "" then ["Answer: " ++ d.answer ++ "\n"] else []
    let sourcesPart :=
      if d.results.isEmpty then []
      else "Sources:" ::
        ((List.enumFrom 1 (d.results.take 3)).map (fun p => formatTavilyItem p.1 p.2)).flatten
    String.intercalate "\n" (answerPart ++ sourcesPart)

/-- tavily_search from `langgraph_agent.py`: invoke the Tavily client and
format the result.  The body contains no `try`/`except`, so an exception
raised by the underlying invocation propagates out of the tool function. -/
def tavily_search (invokeResult : Outcome TavilyValue) : Outcome String :=
  match invokeResult with
  | Outcome.raised e => Outcome.raised e
  | Outcome.ok v => Outcome.ok (formatTavilyResult v)

/-- The rendered `str(e)` of an exception (empty for a bare
`asyncio.TimeoutError`). -/
def exnText : Exn → String
  | Exn.timeout => ""
  | Exn.other text => text

/-- One chunk returned by the RAG retrieval: the source file's name
(`none` models `chunk.file` being `None`) and the chunk text. -/
structure DocChunk where
  filename : Option String
  content : String
deriving DecidableEq, Repr

/-- The two output lines appended for the `i`-th (1-based) retrieved chunk. -/
def formatDocChunk (i : Nat) (c : DocChunk) : List String :=
  let filename := c.filename.getD "Unknown file"
  let txt := if c.content.length > 400 then c.content.take 400 ++ "..." else c.content.take 400
  ["\n📄 Source " ++ toString i ++ ": " ++ filename, txt ++ "\n"]

/-- The explicit empty-retrieval message of the document-search tool. -/
def noDocsMessage : String :=
  "No relevant information found in your uploaded documents. Try uploading files first, then ask me about them once they're processed."

/-- Internal implementation of the document-search tool
(`_search_documents_impl`).  `userId` is the identity extracted from the
config or ambient context; `ragResult` is the outcome of
`rag_service.search_documents`.  The whole body is wrapped in
`try`/`except Exception`, so the function always returns a string. -/
def _search_documents_impl (userId : Option Nat) (ragResult : Outcome (List DocChunk)) :
    String :=
  match userId with
  | none => "Unable to search documents: User context not available."
  | some _ =>
    match ragResult with
    | Outcome.raised e => "Error searching documents: " ++ exnText e
    | Outcome.ok [] => noDocsMessage
    | Outcome.ok chunks =>
      let body := ((List.enumFrom 1 chunks).map (fun p => formatDocChunk p.1 p.2)).flatten
      String.intercalate "\n"
        (("Found " ++ toString chunks.length ++ " relevant excerpts from your documents:\n")
          :: body)

/-- LangChain messages built by `stream_graph` for the graph input. -/
inductive LCMessage
  | human (content : String)
  | ai (content : String)
deriving DecidableEq, Repr

/-- Conversion of a stored message to a LangChain message in `stream_graph`:
`USER` rows become `HumanMessage`, `ASSISTANT` rows become `AIMessage`, and
rows with any other role are skipped. -/
def convertStoredMessage (m : StoredMessage) : Option LCMessage :=
  match m.role with
  | MessageRole.user => some (LCMessage.human m.content)
  | MessageRole.assistant => some (LCMessage.ai m.content)
  | _ => none

/-- The `messages` list `stream_graph` invokes the graph with: the converted
previous messages when checkpointing is disabled and a previous-message list
was supplied (an empty or absent list contributes nothing), followed by the
new `HumanMessage` for the current user input. -/
def streamGraphInputMessages (userInput : String) (useCheckpointing : Bool)
    (previousMessages : Option (List StoredMessage)) : List LCMessage :=
  (if useCheckpointing then []
   else
     match previousMessages with
     | some prev => prev.filterMap convertStoredMessage
     | none => []) ++ [LCMessage.human userInput]

/-- The `use_checkpointing` argument `event_stream` passes to `stream_graph`:
`bool(session_id)`. -/
def eventStreamUseCheckpointing (sessionId : Option Nat) : Bool :=
  sessionId.isSome

/-- The `previous_messages` argument `event_stream` passes to `stream_graph`:
the loaded messages only when `bool(session_id)` is false, else `None`. -/
def eventStreamPreviousMessagesArg (sessionId : Option Nat)
    (loaded : List StoredMessage) : Option (List StoredMessage) :=
  if sessionId.isSome then none else some loaded

/-- The previous messages `event_stream` loads before the stream: the last 20
messages of the session when a session id and database handle are present,
and the initial empty list otherwise. -/
def eventStreamLoadedMessages (store : List StoredMessage) (sessionId : Option Nat)
    (dbPresent : Bool) : List StoredMessage :=
  match sessionId with
  | some sid => if dbPresent then get_last_n_messages store sid 20 else []
  | none => []

/-- Fixture: a database oracle whose operations all succeed. -/
def dbAllOk : DbOps where
  getLastN := Outcome.ok []
  saveUserMessage := Outcome.ok ()
  touchSessionAfterUser := Outcome.ok ()
  saveAssistantMessage := Outcome.ok ()
  touchSessionAfterAssistant := Outcome.ok ()
  countMessages := Outcome.ok 2
  getSession := Outcome.ok ()

/-- Fixture: a database oracle whose initial history load raises. -/
def dbLoadFails : DbOps :=
  { dbAllOk with getLastN := Outcome.raised (Exn.other "database connection lost") }

/-- Fixture: an agent stream yielding no events and completing normally. -/
def agentEmpty : AgentStream :=
  ⟨[], AgentTerminal.completed⟩

/-- Fixture: an agent stream that raises `asyncio.TimeoutError` before any
event. -/
def agentTimeout : AgentStream :=
  ⟨[], AgentTerminal.raised Exn.timeout⟩

/-- Fixture: an agent stream yielding two tokens around a tool notification
and completing normally. -/
def agentHello : AgentStream :=
  ⟨[AgentEvent.token "Hello", AgentEvent.toolStart "Searching the web...",
    AgentEvent.token " world"], AgentTerminal.completed⟩

/-- Fixture: an agent stream yielding only tool activity and completing. -/
def agentToolsOnly : AgentStream :=
  ⟨[AgentEvent.toolStart "Searching the web...",
    AgentEvent.toolCall "tavily_search" "weather in Paris",
    AgentEvent.toolResult "sunny"], AgentTerminal.completed⟩

/-- Fixture: a model message requesting one tool call. -/
def msgWithToolCall : AgentMessage :=
  ⟨"", some [⟨"tavily_search", "weather in Paris"⟩]⟩

lemma string_length_eq_zero_iff (s : String) : s.length = 0 ↔ s = "" := by
  constructor
  · intro h
    cases s with
    | mk data =>
      cases data with
      | nil => rfl
      | cons c cs => simp [String.length] at h
  · intro h
    subst h
    rfl

lemma concatAll_ne_empty (l : List String) (hne : l ≠ []) (hall : ∀ s ∈ l, s ≠ "") :
    concatAll l ≠ "" := by
  cases l with
  | nil => exact absurd rfl hne
  | cons s rest =>
    intro h
    have hs : s ≠ "" := hall s (List.mem_cons_self s rest)
    have hlen : (s ++ concatAll rest).length = 0 := by
      rw [show s ++ concatAll rest = concatAll (s :: rest) from rfl, h]
      rfl
    rw [String.length_append] at hlen
    exact hs ((string_length_eq_zero_iff s).mp (by omega))

lemma stepEvent_chunks_nonterminal (acc : LoopAcc) (e : AgentEvent)
    (h : ∀ c ∈ acc.chunks, isTerminalChunk c = false) :
    ∀ c ∈ (stepEvent acc e).chunks, isTerminalChunk c = false := by
  intro c hc
  cases e with
  | token s =>
    rcases List.mem_append.mp hc with h' | h'
    · exact h c h'
    · rw [List.mem_singleton.mp h']; rfl
  | toolStart m =>
    rcases List.mem_append.mp hc with h' | h'
    · exact h c h'
    · rw [List.mem_singleton.mp h']; rfl
  | toolThinking t =>
    rcases List.mem_append.mp hc with h' | h'
    · exact h c h'
    · rw [List.mem_singleton.mp h']; rfl
  | toolCall t i =>
    rcases List.mem_append.mp hc with h' | h'
    · exact h c h'
    · rw [List.mem_singleton.mp h']; rfl
  | toolResult r =>
    rcases List.mem_append.mp hc with h' | h'
    · exact h c h'
    · rw [List.mem_singleton.mp h']; rfl
  | unknown => exact h c hc

lemma foldl_stepEvent_nonterminal (events : List AgentEvent) :
    ∀ acc : LoopAcc,
      (∀ c ∈ acc.chunks, isTerminalChunk c = false) →
      ∀ c ∈ (List.foldl stepEvent acc events).chunks, isTerminalChunk c = false := by
  induction events with
  | nil => intro acc h; exact h
  | cons e rest ih =>
    intro acc h
    rw [List.foldl_cons]
    exact ih _ (stepEvent_chunks_nonterminal acc e h)

lemma runAgentLoop_chunks_nonterminal (events : List AgentEvent) :
    ∀ c ∈ (runAgentLoop events).chunks, isTerminalChunk c = false :=
  foldl_stepEvent_nonterminal events ⟨[], 0, false, ""⟩ (by intro c hc; cases hc)

lemma foldl_stepEvent_assistantResponse (events : List AgentEvent) :
    ∀ acc : LoopAcc,
      (List.foldl stepEvent acc events).assistantResponse =
        acc.assistantResponse ++ concatAll (tokenContents events) := by
  induction events with
  | nil => intro acc; simp [tokenContents, concatAll]
  | cons e rest ih =>
    intro acc
    rw [List.foldl_cons]
    cases e <;> rw [ih] <;>
      simp [stepEvent, tokenContents, concatAll, String.append_assoc]

lemma foldl_stepEvent_tokenCount (events : List AgentEvent) :
    ∀ acc : LoopAcc,
      (List.foldl stepEvent acc events).tokenCount =
        acc.tokenCount + (tokenContents events).length := by
  induction events with
  | nil => intro acc; simp [tokenContents]
  | cons e rest ih =>
    intro acc
    rw [List.foldl_cons]
    cases e <;> rw [ih] <;> simp [stepEvent, tokenContents] <;> omega

lemma foldl_stepEvent_hasContent (events : List AgentEvent) :
    ∀ acc : LoopAcc,
      (List.foldl stepEvent acc events).hasContent =
        (acc.hasContent || !(tokenContents events).isEmpty) := by
  induction events with
  | nil => intro acc; simp [tokenContents]
  | cons e rest ih =>
    intro acc
    rw [List.foldl_cons]
    cases e <;> rw [ih] <;> simp [stepEvent, tokenContents]

lemma foldl_stepEvent_contentChunks (events : List AgentEvent) :
    ∀ acc : LoopAcc,
      contentChunks (List.foldl stepEvent acc events).chunks =
        contentChunks acc.chunks ++
          (tokenContents events).zip
            (List.range' acc.tokenCount (tokenContents events).length) := by
  induction events with
  | nil => intro acc; simp [tokenContents]
  | cons e rest ih =>
    intro acc
    rw [List.foldl_cons]
    cases e <;> rw [ih] <;>
      simp [stepEvent, tokenContents, contentChunks, List.filterMap_append,
        List.range'_succ, List.zip_cons_cons, List.append_assoc]

lemma runAgentLoop_assistantResponse (events : List AgentEvent) :
    (runAgentLoop events).assistantResponse = concatAll (tokenContents events) := by
  rw [runAgentLoop, foldl_stepEvent_assistantResponse]
  rfl

lemma runAgentLoop_tokenCount (events : List AgentEvent) :
    (runAgentLoop events).tokenCount = (tokenContents events).length := by
  rw [runAgentLoop, foldl_stepEvent_tokenCount]
  simp

lemma runAgentLoop_hasContent (events : List AgentEvent) :
    (runAgentLoop events).hasContent = !(tokenContents events).isEmpty := by
  rw [runAgentLoop, foldl_stepEvent_hasContent]
  rfl

lemma runAgentLoop_contentChunks (events : List AgentEvent) :
    contentChunks (runAgentLoop events).chunks =
      (tokenContents events).zip (List.range' 0 (tokenContents events).length) := by
  rw [runAgentLoop, foldl_stepEvent_contentChunks]
  rfl

lemma event_stream_eq_streamPhase (userInput : String) (sessionAndDb : Bool)
    (db : DbOps) (agent : AgentStream) (hpre : prePhaseSucceeds sessionAndDb db) :
    event_stream userInput sessionAndDb db agent =
      streamPhase sessionAndDb db agent
        (if sessionAndDb then [(MessageRole.user, userInput)] else []) := by
  cases sessionAndDb with
  | false => simp [event_stream]
  | true =>
    obtain ⟨⟨ms, h1⟩, h2, h3⟩ := hpre rfl
    simp [event_stream, h1, h2, h3]

lemma streamPhase_raised (sessionAndDb : Bool) (db : DbOps) (agent : AgentStream)
    (saves : List (MessageRole × String)) (e : Exn)
    (hterm : agent.terminal = AgentTerminal.raised e) :
    streamPhase sessionAndDb db agent saves =
      ⟨SSEChunk.comment :: (runAgentLoop agent.events).chunks ++ [errChunk e], saves⟩ := by
  simp [streamPhase, hterm]

lemma streamPhase_completed (sessionAndDb : Bool) (db : DbOps) (agent : AgentStream)
    (saves : List (MessageRole × String))
    (hterm : agent.terminal = AgentTerminal.completed) :
    streamPhase sessionAndDb db agent saves =
      finishTurn sessionAndDb db (runAgentLoop agent.events)
        (SSEChunk.comment :: (runAgentLoop agent.events).chunks) saves := by
  simp [streamPhase, hterm]

lemma finishTurn_shape (sessionAndDb : Bool) (db : DbOps) (acc : LoopAcc)
    (cs : List SSEChunk) (saves : List (MessageRole × String)) :
    ∃ t, isTerminalChunk t = true ∧
      (finishTurn sessionAndDb db acc cs saves).chunks =
        (if acc.hasContent then cs else cs ++ [SSEChunk.content fallbackMessage 0]) ++ [t] := by
  unfold finishTurn
  cases hcond : sessionAndDb && (acc.assistantResponse != "") with
  | false => exact ⟨SSEChunk.done acc.tokenCount, rfl, rfl⟩
  | true =>
    cases h1 : db.saveAssistantMessage with
    | raised e => exact ⟨errChunk e, rfl, rfl⟩
    | ok u =>
      cases h2 : db.touchSessionAfterAssistant with
      | raised e => exact ⟨errChunk e, rfl, rfl⟩
      | ok u2 =>
        cases h3 : db.countMessages with
        | raised e => exact ⟨errChunk e, rfl, rfl⟩
        | ok k =>
          cases h4 : db.getSession with
          | raised e => exact ⟨errChunk e, rfl, rfl⟩
          | ok u3 => exact ⟨SSEChunk.done acc.tokenCount, rfl, rfl⟩

lemma streamPhase_shape (sessionAndDb : Bool) (db : DbOps) (agent : AgentStream)
    (saves : List (MessageRole × String)) :
    endsWithOneTerminal (streamPhase sessionAndDb db agent saves).chunks ∧
    beginsWithConnectionComment (streamPhase sessionAndDb db agent saves) := by
  cases hterm : agent.terminal with
  | raised e =>
    rw [streamPhase_raised sessionAndDb db agent saves e hterm]
    constructor
    · refine ⟨SSEChunk.comment :: (runAgentLoop agent.events).chunks, errChunk e, rfl, rfl, ?_⟩
      intro x hx
      rcases List.mem_cons.mp hx with h' | h'
      · rw [h']; rfl
      · exact runAgentLoop_chunks_nonterminal agent.events x h'
    · exact ⟨_, rfl⟩
  | completed =>
    rw [streamPhase_completed sessionAndDb db agent saves hterm]
    obtain ⟨t, ht, hch⟩ := finishTurn_shape sessionAndDb db (runAgentLoop agent.events)
      (SSEChunk.comment :: (runAgentLoop agent.events).chunks) saves
    cases hhc : (runAgentLoop agent.events).hasContent with
    | true =>
      rw [hhc, if_pos rfl] at hch
      constructor
      · rw [hch]
        refine ⟨SSEChunk.comment :: (runAgentLoop agent.events).chunks, t, rfl, ht, ?_⟩
        intro x hx
        rcases List.mem_cons.mp hx with h' | h'
        · rw [h']; rfl
        · exact runAgentLoop_chunks_nonterminal agent.events x h'
      · exact ⟨(runAgentLoop agent.events).chunks ++ [t], by rw [hch]; rfl⟩
    | false =>
      rw [hhc, if_neg (by simp)] at hch
      constructor
      · rw [hch]
        refine ⟨SSEChunk.comment :: (runAgentLoop agent.events).chunks ++
            [SSEChunk.content fallbackMessage 0], t, by simp, ht, ?_⟩
        intro x hx
        rcases List.mem_cons.mp hx with h' | h'
        · rw [h']; rfl
        · rcases List.mem_append.mp h' with h'' | h''
          · exact runAgentLoop_chunks_nonterminal agent.events x h''
          · rw [List.mem_singleton.mp h'']; rfl
      · exact ⟨(runAgentLoop agent.events).chunks ++
          [SSEChunk.content fallbackMessage 0] ++ [t], by rw [hch]; simp⟩

/-- C1 (amended): for every execution of the streaming chat turn, the emitted
SSE chunk sequence ends with exactly one terminal event of type 'done' or
'error', with no event emitted after the terminal one and no earlier terminal
event; and whenever the pre-stream persistence operations (history load,
user-message save, last-activity update) do not raise, the sequence begins
with the connection-confirmation comment before any data event.  (As
originally stated — unconditionally beginning with the comment — the claim
fails when a pre-stream persistence operation raises: the stream is then the
single 'error' event, emitted before the comment was ever yielded; see the
counterexample.) -/
theorem C1_stream_terminal_shape (userInput : String) (sessionAndDb : Bool)
    (db : DbOps) (agent : AgentStream) :
    endsWithOneTerminal (event_stream userInput sessionAndDb db agent).chunks ∧
    (prePhaseSucceeds sessionAndDb db →
      beginsWithConnectionComment (event_stream userInput sessionAndDb db agent)) := by
  cases sessionAndDb with
  | false =>
    have he : event_stream userInput false db agent = streamPhase false db agent [] := by
      simp [event_stream]
    rw [he]
    exact ⟨(streamPhase_shape false db agent []).1,
      fun _ => (streamPhase_shape false db agent []).2⟩
  | true =>
    cases h1 : db.getLastN with
    | raised e =>
      have he : event_stream userInput true db agent = ⟨[errChunk e], []⟩ := by
        simp [event_stream, h1]
      rw [he]
      constructor
      · exact ⟨[], errChunk e, rfl, rfl, by intro x hx; cases hx⟩
      · intro hp
        obtain ⟨⟨ms, hms⟩, -, -⟩ := hp rfl
        rw [h1] at hms
        exact Outcome.noConfusion hms
    | ok ms =>
      cases h2 : db.saveUserMessage with
      | raised e =>
        have he : event_stream userInput true db agent = ⟨[errChunk e], []⟩ := by
          simp [event_stream, h1, h2]
        rw [he]
        constructor
        · exact ⟨[], errChunk e, rfl, rfl, by intro x hx; cases hx⟩
        · intro hp
          obtain ⟨-, hsu, -⟩ := hp rfl
          rw [h2] at hsu
          exact Outcome.noConfusion hsu
      | ok u =>
        cases h3 : db.touchSessionAfterUser with
        | raised e =>
          have he : event_stream userInput true db agent =
              ⟨[errChunk e], [(MessageRole.user, userInput)]⟩ := by
            simp [event_stream, h1, h2, h3]
          rw [he]
          constructor
          · exact ⟨[], errChunk e, rfl, rfl, by intro x hx; cases hx⟩
          · intro hp
            obtain ⟨-, -, hts⟩ := hp rfl
            rw [h3] at hts
            exact Outcome.noConfusion hts
        | ok u2 =>
          have he : event_stream userInput true db agent =
              streamPhase true db agent [(MessageRole.user, userInput)] := by
            simp [event_stream, h1, h2, h3]
          rw [he]
          exact ⟨(streamPhase_shape true db agent [(MessageRole.user, userInput)]).1,
            fun _ => (streamPhase_shape true db agent [(MessageRole.user, userInput)]).2⟩

/-- Witness for C1 at a concrete turn whose pre-stream operations succeed. -/
theorem C1_stream_terminal_shape_witness :
    beginsWithConnectionComment (event_stream "hello" true dbAllOk agentHello) :=
  (C1_stream_terminal_shape "hello" true dbAllOk agentHello).2
    (fun _ => ⟨⟨[], rfl⟩, rfl, rfl⟩)

/-- Counterexample to C1 as stated: when the initial history load raises, the
emitted stream is the single 'error' event, so it does not begin with the
connection-confirmation comment. -/
theorem C1_counterexample :
    ¬ (beginsWithConnectionComment (event_stream "hello" true dbLoadFails agentEmpty) ∧
       endsWithOneTerminal (event_stream "hello" true dbLoadFails agentEmpty).chunks) := by
  intro h
  obtain ⟨⟨rest, hr⟩, -⟩ := h
  have he : (event_stream "hello" true dbLoadFails agentEmpty).chunks =
      [SSEChunk.error "database connection lost"] := rfl
  rw [he] at hr
  exact SSEChunk.noConfusion (List.cons.inj hr).1

/-- C3: if the agent invocation raises (the pre-stream persistence itself
having succeeded), the stream ends with exactly one 'error' event — carrying
the dedicated timed-out message for `asyncio.TimeoutError` and the rendered
exception text otherwise — no event follows it, and no assistant message
(not even accumulated partial token text) is persisted for that turn. -/
theorem C3_agent_exception_single_error (userInput : String) (sessionAndDb : Bool)
    (db : DbOps) (agent : AgentStream) (e : Exn)
    (hpre : prePhaseSucceeds sessionAndDb db)
    (hterm : agent.terminal = AgentTerminal.raised e) :
    (∃ cs,
      (event_stream userInput sessionAndDb db agent).chunks =
        cs ++ [SSEChunk.error (match e with
          | Exn.timeout => "Request timed out. The tool took too long to respond."
          | Exn.other text => text)] ∧
      (∀ x ∈ cs, isTerminalChunk x = false)) ∧
    (∀ s, (MessageRole.assistant, s) ∉ (event_stream userInput sessionAndDb db agent).saves) := by
  rw [event_stream_eq_streamPhase userInput sessionAndDb db agent hpre,
    streamPhase_raised sessionAndDb db agent _ e hterm]
  constructor
  · refine ⟨SSEChunk.comment :: (runAgentLoop agent.events).chunks, ?_, ?_⟩
    · cases e <;> rfl
    · intro x hx
      rcases List.mem_cons.mp hx with h' | h'
      · rw [h']; rfl
      · exact runAgentLoop_chunks_nonterminal agent.events x h'
  · intro s hs
    cases sessionAndDb with
    | false => cases hs
    | true =>
      have h' := List.mem_singleton.mp hs
      simp at h'

/-- Witness for C3 at a concrete turn whose agent invocation times out. -/
theorem C3_agent_exception_single_error_witness :
    ∃ cs,
      (event_stream "hi" true dbAllOk agentTimeout).chunks =
        cs ++ [SSEChunk.error "Request timed out. The tool took too long to respond."] ∧
      (∀ x ∈ cs, isTerminalChunk x = false) :=
  (C3_agent_exception_single_error "hi" true dbAllOk agentTimeout Exn.timeout
    (fun _ => ⟨⟨[], rfl⟩, rfl, rfl⟩) rfl).1

lemma event_stream_eq_streamPhase_true (userInput : String) (db : DbOps)
    (agent : AgentStream) (hpre : prePhaseSucceeds true db) :
    event_stream userInput true db agent =
      streamPhase true db agent [(MessageRole.user, userInput)] := by
  rw [event_stream_eq_streamPhase userInput true db agent hpre, if_pos rfl]

lemma finishTurn_assistant_saved (db : DbOps) (acc : LoopAcc) (cs : List SSEChunk)
    (saves : List (MessageRole × String)) (hc : acc.hasContent = true)
    (hresp : acc.assistantResponse ≠ "") (hsave : db.saveAssistantMessage = Outcome.ok ()) :
    (finishTurn true db acc cs saves).saves =
      saves ++ [(MessageRole.assistant, acc.assistantResponse)] ∧
    contentChunks (finishTurn true db acc cs saves).chunks = contentChunks cs := by
  have hcond : (true && (acc.assistantResponse != "")) = true := by
    simp [hresp]
  cases h2 : db.touchSessionAfterAssistant with
  | raised e2 =>
    constructor
    · simp [finishTurn, hc, hcond, hsave, h2]
    · simp [finishTurn, hc, hcond, hsave, h2, contentChunks, List.filterMap_append,
        errChunk, errorMessage]
  | ok u2 =>
    cases h3 : db.countMessages with
    | raised e3 =>
      constructor
      · simp [finishTurn, hc, hcond, hsave, h2, h3]
      · simp [finishTurn, hc, hcond, hsave, h2, h3, contentChunks, List.filterMap_append,
          errChunk, errorMessage]
    | ok k =>
      cases h4 : db.getSession with
      | raised e4 =>
        constructor
        · simp [finishTurn, hc, hcond, hsave, h2, h3, h4]
        · simp [finishTurn, hc, hcond, hsave, h2, h3, h4, contentChunks,
            List.filterMap_append, errChunk, errorMessage]
      | ok u4 =>
        constructor
        · simp [finishTurn, hc, hcond, hsave, h2, h3, h4]
        · simp [finishTurn, hc, hcond, hsave, h2, h3, h4, contentChunks,
            List.filterMap_append]

/-- C2: for every turn with a session id and database handle whose pre-stream
persistence succeeds, whose agent stream completes normally with at least one
(non-empty) token event, and whose assistant-message save succeeds, the text
persisted as the assistant message is exactly the concatenation of the token
events' contents; moreover the emitted content chunks carry those contents in
emission order with sequence numbers 0, 1, 2, ..., so concatenation in
sequence-number order coincides with concatenation in emission order.  (Token
events carry non-empty content by construction: `stream_graph` only yields a
token event when `content.content` is truthy.) -/
theorem C2_persisted_equals_token_concat (userInput : String) (db : DbOps)
    (agent : AgentStream)
    (hpre : prePhaseSucceeds true db)
    (hterm : agent.terminal = AgentTerminal.completed)
    (hsave : db.saveAssistantMessage = Outcome.ok ())
    (hne : tokenContents agent.events ≠ [])
    (hall : ∀ c ∈ tokenContents agent.events, c ≠ "") :
    (event_stream userInput true db agent).saves =
      [(MessageRole.user, userInput),
       (MessageRole.assistant, concatAll (tokenContents agent.events))] ∧
    (contentChunks (event_stream userInput true db agent).chunks).map Prod.fst =
      tokenContents agent.events ∧
    (contentChunks (event_stream userInput true db agent).chunks).map Prod.snd =
      List.range (tokenContents agent.events).length := by
  have hresp : (runAgentLoop agent.events).assistantResponse =
      concatAll (tokenContents agent.events) := runAgentLoop_assistantResponse agent.events
  have hrespne : (runAgentLoop agent.events).assistantResponse ≠ "" := by
    rw [hresp]
    exact concatAll_ne_empty _ hne hall
  have hhc : (runAgentLoop agent.events).hasContent = true := by
    rw [runAgentLoop_hasContent]
    cases htok : tokenContents agent.events with
    | nil => exact absurd htok hne
    | cons c rest => rfl
  rw [event_stream_eq_streamPhase_true userInput db agent hpre,
    streamPhase_completed true db agent _ hterm]
  obtain ⟨hsaves, hcc⟩ := finishTurn_assistant_saved db (runAgentLoop agent.events)
    (SSEChunk.comment :: (runAgentLoop agent.events).chunks)
    [(MessageRole.user, userInput)] hhc hrespne hsave
  have hcomment : contentChunks (SSEChunk.comment :: (runAgentLoop agent.events).chunks) =
      contentChunks (runAgentLoop agent.events).chunks := by
    simp [contentChunks]
  refine ⟨?_, ?_, ?_⟩
  · rw [hsaves, hresp]
    rfl
  · rw [hcc, hcomment, runAgentLoop_contentChunks]
    exact List.map_fst_zip _ _ (by simp)
  · rw [hcc, hcomment, runAgentLoop_contentChunks,
      List.map_snd_zip _ _ (by simp), List.range_eq_range']

/-- Witness for C2 at a concrete turn with two token events. -/
theorem C2_persisted_equals_token_concat_witness :
    (event_stream "hi" true dbAllOk agentHello).saves =
      [(MessageRole.user, "hi"),
       (MessageRole.assistant, concatAll (tokenContents agentHello.events))] :=
  (C2_persisted_equals_token_concat "hi" dbAllOk agentHello
    (fun _ => ⟨⟨[], rfl⟩, rfl, rfl⟩) rfl rfl (by decide) (by decide)).1

lemma event_stream_noToken_shape (userInput : String) (sessionAndDb : Bool) (db : DbOps)
    (agent : AgentStream) (hpre : prePhaseSucceeds sessionAndDb db)
    (hterm : agent.terminal = AgentTerminal.completed)
    (hnotok : tokenContents agent.events = []) :
    (event_stream userInput sessionAndDb db agent).chunks =
      SSEChunk.comment :: (runAgentLoop agent.events).chunks ++
        [SSEChunk.content fallbackMessage 0, SSEChunk.done 0] ∧
    contentChunks (runAgentLoop agent.events).chunks = [] := by
  have hhc : (runAgentLoop agent.events).hasContent = false := by
    rw [runAgentLoop_hasContent, hnotok]
    rfl
  have hresp : (runAgentLoop agent.events).assistantResponse = "" := by
    rw [runAgentLoop_assistantResponse, hnotok]
    rfl
  have htc : (runAgentLoop agent.events).tokenCount = 0 := by
    rw [runAgentLoop_tokenCount, hnotok]
    rfl
  have hcond :
      (sessionAndDb && ((runAgentLoop agent.events).assistantResponse != "")) = false := by
    rw [hresp]
    simp
  constructor
  · rw [event_stream_eq_streamPhase userInput sessionAndDb db agent hpre,
      streamPhase_completed sessionAndDb db agent _ hterm]
    simp [finishTurn, hcond, hhc, htc]
  · rw [runAgentLoop_contentChunks, hnotok]
    rfl

/-- C6: for every turn that emits zero token events and terminates without
error, exactly one synthetic fallback content event — carrying the user-facing
fallback message `fallbackMessage` — is emitted, immediately before the 'done'
event, and no other content event occurs in the stream. -/
theorem C6_fallback_content_event (userInput : String) (sessionAndDb : Bool) (db : DbOps)
    (agent : AgentStream) (hpre : prePhaseSucceeds sessionAndDb db)
    (hterm : agent.terminal = AgentTerminal.completed)
    (hnotok : tokenContents agent.events = []) :
    ∃ cs, (event_stream userInput sessionAndDb db agent).chunks =
        cs ++ [SSEChunk.content fallbackMessage 0, SSEChunk.done 0] ∧
      ∀ s t, SSEChunk.content s t ∉ cs := by
  obtain ⟨hchunks, hcc⟩ :=
    event_stream_noToken_shape userInput sessionAndDb db agent hpre hterm hnotok
  refine ⟨SSEChunk.comment :: (runAgentLoop agent.events).chunks, ?_, ?_⟩
  · rw [hchunks]
  · intro s t hmem
    rcases List.mem_cons.mp hmem with h' | h'
    · exact SSEChunk.noConfusion h'
    · have hin : (s, t) ∈ contentChunks (runAgentLoop agent.events).chunks :=
        List.mem_filterMap.mpr ⟨SSEChunk.content s t, h', rfl⟩
      rw [hcc] at hin
      cases hin

/-- Witness for C6 at a concrete turn with only tool activity. -/
theorem C6_fallback_content_event_witness :
    ∃ cs, (event_stream "hi" false dbAllOk agentToolsOnly).chunks =
        cs ++ [SSEChunk.content fallbackMessage 0, SSEChunk.done 0] ∧
      ∀ s t, SSEChunk.content s t ∉ cs :=
  C6_fallback_content_event "hi" false dbAllOk agentToolsOnly
    (fun h => Bool.noConfusion h) rfl rfl

/-- C10: for every turn with zero token events and no error, the synthetic
fallback content event carries sequence number 0 and is the only content
event delivered, yet the final 'done' event reports `total_tokens = 0` — the
fallback is not counted toward the token total. -/
theorem C10_fallback_not_counted (userInput : String) (sessionAndDb : Bool) (db : DbOps)
    (agent : AgentStream) (hpre : prePhaseSucceeds sessionAndDb db)
    (hterm : agent.terminal = AgentTerminal.completed)
    (hnotok : tokenContents agent.events = []) :
    contentChunks (event_stream userInput sessionAndDb db agent).chunks =
      [(fallbackMessage, 0)] ∧
    (event_stream userInput sessionAndDb db agent).chunks.getLast? =
      some (SSEChunk.done 0) := by
  obtain ⟨hchunks, hcc⟩ :=
    event_stream_noToken_shape userInput sessionAndDb db agent hpre hterm hnotok
  constructor
  · have hsplit : contentChunks (SSEChunk.comment :: (runAgentLoop agent.events).chunks ++
        [SSEChunk.content fallbackMessage 0, SSEChunk.done 0]) =
        contentChunks (runAgentLoop agent.events).chunks ++ [(fallbackMessage, 0)] := by
      simp [contentChunks, List.filterMap_append]
    rw [hchunks, hsplit, hcc]
    rfl
  · rw [hchunks,
      show SSEChunk.comment :: (runAgentLoop agent.events).chunks ++
          [SSEChunk.content fallbackMessage 0, SSEChunk.done 0] =
        (SSEChunk.comment :: ((runAgentLoop agent.events).chunks ++
          [SSEChunk.content fallbackMessage 0])) ++ [SSEChunk.done 0] from by simp]
    exact List.getLast?_concat _

/-- Witness for C10 at a concrete turn with only tool activity. -/
theorem C10_fallback_not_counted_witness :
    contentChunks (event_stream "hi" false dbAllOk agentToolsOnly).chunks =
      [(fallbackMessage, 0)] :=
  (C10_fallback_not_counted "hi" false dbAllOk agentToolsOnly
    (fun h => Bool.noConfusion h) rfl rfl).1

/-- C4: for every non-empty message list (written `ms ++ [lastMsg]`), the
conditional transition after `call_model` returns the tools node if and only
if the latest message carries one or more tool-call requests, returns END
otherwise, and in the compiled graph END is reached only from `call_model`
with a `should_continue` verdict of END. -/
theorem C4_should_continue_routes (ms : List AgentMessage) (lastMsg : AgentMessage) :
    (should_continue (ms ++ [lastMsg]) = some GraphNode.tools ↔
      ∃ calls, lastMsg.toolCalls = some calls ∧ calls ≠ []) ∧
    ((¬ ∃ calls, lastMsg.toolCalls = some calls ∧ calls ≠ []) →
      should_continue (ms ++ [lastMsg]) = some GraphNode.endNode) ∧
    (∀ node, graphStep node (ms ++ [lastMsg]) = some GraphNode.endNode →
      node = GraphNode.callModel ∧
        should_continue (ms ++ [lastMsg]) = some GraphNode.endNode) := by
  have hsc : should_continue (ms ++ [lastMsg]) =
      (match lastMsg.toolCalls with
       | some calls =>
         if calls.isEmpty then some GraphNode.endNode else some GraphNode.tools
       | none => some GraphNode.endNode) := by
    simp only [should_continue, List.getLast?_concat]
  refine ⟨⟨?_, ?_⟩, ?_, ?_⟩
  · intro htools
    rw [hsc] at htools
    cases h : lastMsg.toolCalls with
    | none =>
      rw [h] at htools
      exact absurd htools (by simp)
    | some calls =>
      rw [h] at htools
      cases calls with
      | nil => exact absurd htools (by simp)
      | cons a rest => exact ⟨a :: rest, rfl, by simp⟩
  · rintro ⟨calls, hcalls, hne⟩
    rw [hsc, hcalls]
    cases calls with
    | nil => exact absurd rfl hne
    | cons a rest => rfl
  · intro hno
    rw [hsc]
    cases h : lastMsg.toolCalls with
    | none => rfl
    | some calls =>
      cases calls with
      | nil => rfl
      | cons a rest => exact absurd ⟨a :: rest, h, by simp⟩ hno
  · intro node hstep
    cases node with
    | start => exact absurd hstep (by simp [graphStep])
    | callModel => exact ⟨rfl, hstep⟩
    | tools => exact absurd hstep (by simp [graphStep])
    | endNode => exact absurd hstep (by simp [graphStep])

/-- Witness for C4 at a concrete message carrying one tool-call request. -/
theorem C4_should_continue_routes_witness :
    should_continue ([] ++ [msgWithToolCall]) = some GraphNode.tools :=
  (C4_should_continue_routes [] msgWithToolCall).1.mpr
    ⟨[⟨"tavily_search", "weather in Paris"⟩], rfl, by simp⟩

/-- Counterexample to C5 as stated: the web-search tool (`tavily_search`)
contains no exception handler in the repository code, so an exception raised
by the underlying Tavily invocation propagates out of the tool function
instead of being converted into a textual tool result. -/
theorem C5_counterexample :
    ¬ ∃ text, tavily_search (Outcome.raised (Exn.other "network unreachable")) =
      Outcome.ok text := by
  rintro ⟨text, h⟩
  exact Outcome.noConfusion h

/-- C5 (amended): the document-search tool converts every exception raised
during its execution — including a missing user context — into a descriptive
textual tool result, so its failures never abort the turn; the web-search
tool (`tavily_search`), by contrast, performs no such conversion in the
repository code: an exception from the underlying invocation propagates out
of the tool function unchanged. -/
theorem C5_tool_error_boundaries :
    (∀ e, _search_documents_impl none (Outcome.raised e) =
      "Unable to search documents: User context not available.") ∧
    (∀ uid e, _search_documents_impl (some uid) (Outcome.raised e) =
      "Error searching documents: " ++ exnText e) ∧
    (∀ e, tavily_search (Outcome.raised e) = Outcome.raised e) :=
  ⟨fun _ => rfl, fun _ _ => rfl, fun _ => rfl⟩

/-- C7: (a) when a session id and database handle are present, the loaded
history is exactly the session's most recent 20 messages; (b) with
checkpointing disabled, a supplied previous-message list is converted and
included, oldest first, before the new user message in the graph input;
(c) `event_stream` enables checkpointing exactly when a session id is
present, and then passes no loaded messages to the graph; (d) with
checkpointing enabled, the graph input contains only the new user message. -/
theorem C7_history_window_wiring :
    (∀ store sid, eventStreamLoadedMessages store (some sid) true =
      get_last_n_messages store sid 20) ∧
    (∀ userInput prev, streamGraphInputMessages userInput false (some prev) =
      prev.filterMap convertStoredMessage ++ [LCMessage.human userInput]) ∧
    (∀ sid loaded, eventStreamUseCheckpointing (some sid) = true ∧
      eventStreamPreviousMessagesArg (some sid) loaded = none) ∧
    (∀ userInput prevOpt, streamGraphInputMessages userInput true prevOpt =
      [LCMessage.human userInput]) :=
  ⟨fun _ _ => rfl, fun _ _ => rfl, fun _ _ => ⟨rfl, rfl⟩, fun _ _ => rfl⟩

/-- C8: a document-search invocation whose retrieval returns no chunks
produces the explicit non-empty no-relevant-information message — never the
empty string (and, the return type being a plain string, never a raised
exception). -/
theorem C8_empty_retrieval_explicit_message (uid : Nat) :
    _search_documents_impl (some uid) (Outcome.ok []) =
      "No relevant information found in your uploaded documents. Try uploading files first, then ask me about them once they're processed." ∧
    _search_documents_impl (some uid) (Outcome.ok []) ≠ "" := by
  constructor
  · rfl
  · intro h
    rw [show _search_documents_impl (some uid) (Outcome.ok []) = noDocsMessage from rfl] at h
    exact absurd h (by decide)

/-- Witness for C8 at a concrete user id. -/
theorem C8_empty_retrieval_explicit_message_witness :
    _search_documents_impl (some 0) (Outcome.ok []) ≠ "" :=
  (C8_empty_retrieval_explicit_message 0).2

lemma reverse_take_reverse {α : Type} (l : List α) (k : Nat) :
    (l.reverse.take k).reverse = l.drop (l.length - k) := by
  rw [← List.rtake_eq_reverse_take_reverse, List.rtake]

/-- C9: saving a message and then immediately loading the most recent n
messages (n ≥ 1) of the same session, with no intervening writes, yields the
chronological (oldest-first) suffix of the session's rows whose last — most
recent — entry is exactly the saved message. -/
theorem C9_save_then_load_roundtrip (store : List StoredMessage) (sessionId : Nat)
    (role : MessageRole) (content : String) (n : Nat) (hn : 1 ≤ n) :
    get_last_n_messages (save_message store sessionId role content) sessionId n =
      (sessionMessages store sessionId).drop
        ((sessionMessages store sessionId).length + 1 - n) ++
        [⟨sessionId, role, content⟩] ∧
    (get_last_n_messages (save_message store sessionId role content) sessionId n).getLast? =
      some ⟨sessionId, role, content⟩ := by
  have hfilter : sessionMessages (save_message store sessionId role content) sessionId =
      sessionMessages store sessionId ++ [⟨sessionId, role, content⟩] := by
    simp [sessionMessages, save_message, List.filter_append]
  have key : get_last_n_messages (save_message store sessionId role content) sessionId n =
      (sessionMessages store sessionId).drop
        ((sessionMessages store sessionId).length + 1 - n) ++
        [(⟨sessionId, role, content⟩ : StoredMessage)] := by
    rw [get_last_n_messages, hfilter]
    have h1 : ((sessionMessages store sessionId) ++
        [(⟨sessionId, role, content⟩ : StoredMessage)]).reverse =
        (⟨sessionId, role, content⟩ : StoredMessage) :: (sessionMessages store sessionId).reverse := by
      simp
    rw [h1]
    obtain ⟨k, rfl⟩ : ∃ k, n = k + 1 := ⟨n - 1, by omega⟩
    rw [List.take_succ_cons, List.reverse_cons, reverse_take_reverse,
      show (sessionMessages store sessionId).length + 1 - (k + 1) =
        (sessionMessages store sessionId).length - k from by omega]
  exact ⟨key, by rw [key]; exact List.getLast?_concat _⟩

/-- Witness for C9 at a concrete store, session and window size. -/
theorem C9_save_then_load_roundtrip_witness :
    (get_last_n_messages (save_message [] 1 MessageRole.user "hey") 1 5).getLast? =
      some ⟨1, MessageRole.user, "hey"⟩ :=
  (C9_save_then_load_roundtrip [] 1 MessageRole.user "hey" 5 (by omega)).2
